import Mathlib

/-!
Shallow embedding of the core pipeline of `src/content.js`
(Twitter Auto-Expand content script, Chrome optimized version).

Elements of the DOM are modelled by `Button` records carrying the attributes
the script reads (identity, connectivity, dataset test id, inline style,
text content, disabled flag, ancestor chain) plus attributes the spec talks
about but the script never reads (aria-hidden, layout rectangle, opacity).
The script's mutable globals (`processedButtons`, `pendingButtons`,
the intersection observer's target set, the queued `requestIdleCallback`
batches, the scheduled `setTimeout` click callbacks, the click log and the
`isProcessing` flag) form the state `St`.  Event-loop turns (scan callbacks,
idle callbacks, intersection-observer callbacks, click timers, backup
interval ticks) are the constructors of `Event`; a session is a trace of
events folded over the state by `run`.
-/

set_option autoImplicit false

namespace TwitExpand

/-- Configuration constants of `src/content.js` (the `CONFIG` object).
`intersectionThresholdTenths` models the float `0.1` as tenths. -/
structure Config where
  clickDelay : Nat
  debounceDelay : Nat
  maxProcessPerBatch : Nat
  intersectionThresholdTenths : Nat

/-- The `CONFIG` literal of `src/content.js` lines 6-11. -/
def CONFIG : Config :=
  { clickDelay := 300
    debounceDelay := 200
    maxProcessPerBatch := 5
    intersectionThresholdTenths := 1 }

/-- An ancestor node on an element's `parentElement` chain, with the
attributes `findTweetContainer` reads. -/
structure Anc where
  testid : Option String
  tagName : String
  role : Option String
deriving Repr, DecidableEq

/-- A DOM element as seen by the script: identity plus every attribute the
script reads, and the layout attributes the spec mentions (`ariaHidden`,
`rectWidth`, `rectHeight`, `opacity`) which `content.js` never reads but a
claim may refer to.  `ancestors` is the `parentElement` chain, nearest
first. -/
structure Button where
  id : Nat
  isConnected : Bool
  tagName : String
  testid : Option String
  styleDisplay : String
  styleVisibility : String
  textContent : String
  disabled : Bool
  ariaHidden : Bool
  rectWidth : Nat
  rectHeight : Nat
  opacity : String
  ancestors : List Anc
deriving Repr, DecidableEq

/-- An `IntersectionObserverEntry`: the target element (in its state at
callback time) and the `isIntersecting` flag. -/
structure Entry where
  target : Button
  isIntersecting : Bool
deriving Repr, DecidableEq

/-- JavaScript `String.prototype.includes`. -/
def jsIncludes (s sub : String) : Bool :=
  decide (sub.toList <:+: s.toList)

/-- Insertion into a JS `Set` (insertion order preserved, no duplicates). -/
def setAdd (l : List Nat) (x : Nat) : List Nat :=
  if l.contains x then l else l ++ [x]

/-- The mutable state of the content script:
`processed` is the `processedButtons` WeakSet (element identities),
`pending` the `pendingButtons` Set in insertion order,
`observed` the set of targets the intersection observer currently observes,
`idleTasks` the queued `requestIdleCallback` batches (FIFO),
`scheduledClicks` the outstanding `setTimeout` click callbacks (FIFO),
`clicks` the log of `button.click()` invocations, and
`isProcessing` the re-entrancy flag of `processPendingButtons`. -/
structure St where
  processed : List Nat
  pending : List Nat
  observed : List Nat
  idleTasks : List (List Nat)
  scheduledClicks : List Nat
  clicks : List Nat
  isProcessing : Bool
deriving Repr, DecidableEq

/-- The state at script start: every registry empty, no flag set. -/
def St.start : St :=
  { processed := []
    pending := []
    observed := []
    idleTasks := []
    scheduledClicks := []
    clicks := []
    isProcessing := false }

/-- `isValidShowMoreButton` of `content.js` lines 49-69: rejects a
disconnected or already-processed element, a wrong `data-testid`, an inline
style of `display:none` or `visibility:hidden`, and text content not
containing `"Show more"`.  (It reads nothing else: not `disabled`, not
`aria-hidden`, not layout extent, not opacity.) -/
def isValidShowMoreButton (processed : List Nat) (b : Button) : Bool :=
  if !b.isConnected || processed.contains b.id then
    false
  else if b.testid != some "tweet-text-show-more-link" then
    false
  else if b.styleDisplay == "none" || b.styleVisibility == "hidden" then
    false
  else if !(jsIncludes b.textContent "Show more") then
    false
  else
    true

/-- The container test inside the `findTweetContainer` loop. -/
def isTweetContainer (a : Anc) : Bool :=
  a.testid == some "tweet" || (a.tagName == "ARTICLE" && a.role == some "article")

/-- `findTweetContainer` of `content.js` lines 74-87: walk up to `maxDepth
= 10` ancestors looking for a tweet container. -/
def findTweetContainer (b : Button) : Option Anc :=
  (b.ancestors.take 10).find? isTweetContainer

/-- `processButton` of `content.js` lines 92-113: validate, mark processed,
require a tweet container, then schedule the click via `setTimeout` with
`CONFIG.clickDelay`.  The scheduled callback is recorded in
`scheduledClicks` and fires later as a `clickTimer` event. -/
def processButton (st : St) (b : Button) : St :=
  if !(isValidShowMoreButton st.processed b) then
    st
  else
    let st1 := { st with processed := setAdd st.processed b.id }
    if (findTweetContainer b).isNone then
      st1
    else
      { st1 with scheduledClicks := st1.scheduledClicks ++ [b.id] }

/-- One entry of the `IntersectionObserver` callback, `content.js` lines
31-37: if the entry is intersecting and the target is in `pendingButtons`,
delete it from `pendingButtons` and call `processButton` on it. -/
def ioCallbackEntry (st : St) (en : Entry) : St :=
  if en.isIntersecting && st.pending.contains en.target.id then
    processButton { st with pending := st.pending.erase en.target.id } en.target
  else
    st

/-- The whole `IntersectionObserver` callback: `entries.forEach`. -/
def ioCallback (st : St) (entries : List Entry) : St :=
  entries.foldl ioCallbackEntry st

/-- The synchronous part of `processPendingButtons`, `content.js` lines
118-135: early return when `isProcessing`, otherwise set the flag, take the
first `CONFIG.maxProcessPerBatch` elements of `pendingButtons` (JS
`Array.from(set).slice(0, n)`), clear `pendingButtons` entirely, and queue
the batch for `requestIdleCallback`. -/
def processPendingButtons (st : St) : St :=
  if st.isProcessing then
    st
  else
    let batch := st.pending.take CONFIG.maxProcessPerBatch
    { st with
      isProcessing := true
      pending := []
      idleTasks := st.idleTasks ++ [batch] }

/-- The `requestIdleCallback` body (`processFunction`, `content.js` lines
125-132): for each batch element still connected (connectivity at idle
time given by `conn`), call `intersectionObserver.observe`; then clear
`isProcessing`.  If no idle task is queued nothing runs. -/
def idleProcess (st : St) (conn : Nat → Bool) : St :=
  match st.idleTasks with
  | [] => st
  | batch :: rest =>
    { st with
      idleTasks := rest
      observed := batch.foldl (fun o e => if conn e then setAdd o e else o) st.observed
      isProcessing := false }

/-- Selector match for `BUTTON_SELECTOR =
'button[data-testid="tweet-text-show-more-link"]'` used by
`document.querySelectorAll`. -/
def matchesSelector (b : Button) : Bool :=
  b.tagName == "BUTTON" && b.testid == some "tweet-text-show-more-link"

/-- One iteration of the `for` loop of `findNewButtons`, `content.js` lines
144-149: admit the button to `pendingButtons` when it is not processed and
valid, counting it. -/
def scanStep (p : St × Nat) (b : Button) : St × Nat :=
  if !(p.1.processed.contains b.id) && isValidShowMoreButton p.1.processed b then
    ({ p.1 with pending := setAdd p.1.pending b.id }, p.2 + 1)
  else
    p

/-- `findNewButtons` of `content.js` lines 140-156: query the DOM with the
button selector, run the admission loop, and when any new button was found
call `processPendingButtons`.  Returns the new state and
`newButtonCount`. -/
def findNewButtons (st : St) (dom : List Button) : St × Nat :=
  let p := (dom.filter matchesSelector).foldl scanStep (st, 0)
  if p.2 > 0 then (processPendingButtons p.1, p.2) else p

/-- A scheduled click callback firing (`content.js` lines 103-112): the
`setTimeout` body re-validates `button.isConnected && !button.disabled`
with the element's state `b` at fire time, clicks when the check passes,
and swallows any exception of `click()` in its `try`/`catch` — so the
`raises` flag of the action does not change the state. -/
def fireScheduledClick (st : St) (b : Button) (_raises : Bool) : St :=
  if st.scheduledClicks.contains b.id then
    let st1 := { st with scheduledClicks := st.scheduledClicks.erase b.id }
    if b.isConnected && !b.disabled then
      { st1 with clicks := st1.clicks ++ [b.id] }
    else
      st1
  else
    st

/-- The backup `setInterval` body (`content.js` lines 232-239): prune
disconnected elements from `pendingButtons` (connectivity at tick time
given by `conn`), then run `findNewButtons`. -/
def backupTick (st : St) (conn : Nat → Bool) (dom : List Button) : St :=
  (findNewButtons { st with pending := st.pending.filter conn } dom).1

/-- An event-loop turn of the pipeline.  `scan` covers every path into
`findNewButtons` (the debounced rescan, the navigation rescan and the
initial scan), `idle` an idle callback, `visibility` an intersection
observer callback, `clickTimer` a scheduled click firing (with the
element's state at fire time and whether `click()` raises), and `backup` a
backup-interval tick.  DOM snapshots are supplied by the environment at
each turn. -/
inductive Event where
  | scan (dom : List Button)
  | idle (conn : Nat → Bool)
  | visibility (entries : List Entry)
  | clickTimer (b : Button) (raises : Bool)
  | backup (conn : Nat → Bool) (dom : List Button)

/-- Semantics of one event-loop turn. -/
def step (st : St) : Event → St
  | .scan dom => (findNewButtons st dom).1
  | .idle conn => idleProcess st conn
  | .visibility entries => ioCallback st entries
  | .clickTimer b raises => fireScheduledClick st b raises
  | .backup conn dom => backupTick st conn dom

/-- Run a trace of event-loop turns from a state. -/
def runFrom (st : St) (tr : List Event) : St :=
  tr.foldl step st

/-- Run a session from script start. -/
def run (tr : List Event) : St :=
  runFrom St.start tr

/-- Does an event deliver a visibility crossing (an intersecting entry)
for element `e`? -/
def Event.crossingFor (e : Nat) : Event → Bool
  | .visibility entries => entries.any (fun en => en.isIntersecting && en.target.id == e)
  | _ => false

/-- Element `e` crossed the visibility threshold somewhere in the trace. -/
def crossedIn (tr : List Event) (e : Nat) : Bool :=
  tr.any (Event.crossingFor e)

/-- Is the event a scan-carrying turn (direct scan or backup tick)? -/
def Event.isScanTurn : Event → Bool
  | .scan _ => true
  | .backup _ _ => true
  | _ => false

/-- `debouncedExpand` of `content.js` lines 161-164 acting on the single
`debounceTimer` slot at wall-clock time `now`: `clearTimeout` discards
whatever was scheduled (the old slot value is dropped) and `setTimeout`
schedules the rescan at `now + CONFIG.debounceDelay`.  The single mutable
variable `debounceTimer` is one `Option Nat` slot (the scheduled fire
time), so at most one rescan is outstanding at any time by construction. -/
def debouncedExpand (_timer : Option Nat) (now : Nat) : Option Nat :=
  some (now + CONFIG.debounceDelay)

/-- Fire times of the debounced rescan over a time-sorted list of change
signals, starting from timer slot `timer`.  A pending timer with fire time
`f` fires before a signal arriving at `t ≥ f`; a signal arriving strictly
before `f` cancels it (`clearTimeout`) so it never fires.  Each signal
reschedules via `debouncedExpand`, and a timer still pending after the
last signal fires. -/
def runDebounce : List Nat → Option Nat → List Nat
  | [], some f => [f]
  | [], none => []
  | t :: rest, timer =>
    (match timer with
     | some f => if f ≤ t then [f] else []
     | none => []) ++ runDebounce rest (debouncedExpand timer t)

/-- Every signal of the list arrives strictly less than the quiet period
`d` after the previous one. -/
def chainB (d : Nat) : List Nat → Bool
  | [] => true
  | [_] => true
  | t :: t' :: rest => decide (t' < t + d) && chainB d (t' :: rest)

/-- The time of the last signal (`t` when the list is empty). -/
def lastSignal (t : Nat) : List Nat → Nat
  | [] => t
  | t' :: rest => lastSignal t' rest

/-- The timers and subscriptions the script holds after its `initialize`
function (`content.js` lines 215-242) has run: the mutation observer, the
intersection observer, the (possibly armed) debounce timer, the navigation
observer `navObserver`, and the backup `setInterval`. -/
structure Subs where
  mutationObserver : Bool
  intersectionObserver : Bool
  debounceTimerActive : Bool
  navObserver : Bool
  backupInterval : Bool
deriving Repr, DecidableEq

/-- Subscription state once `initialize` has run: both observers attached,
the navigation observer attached, the backup interval armed.  The debounce
timer is armed only by a later mutation burst. -/
def subsAfterInit : Subs :=
  { mutationObserver := true
    intersectionObserver := true
    debounceTimerActive := false
    navObserver := true
    backupInterval := true }

/-- `cleanup` of `content.js` lines 247-251: `observer?.disconnect()`,
`intersectionObserver?.disconnect()`, `clearTimeout(debounceTimer)`.  The
function touches nothing else: `navObserver` and the backup `setInterval`
(whose handle is never stored) are left as they are. -/
def cleanup (s : Subs) : Subs :=
  { s with
    mutationObserver := false
    intersectionObserver := false
    debounceTimerActive := false }

/-- A tweet container ancestor. -/
def ancTweet : Anc :=
  { testid := some "tweet", tagName := "DIV", role := none }

/-- A concrete fully valid show-more button sitting inside a tweet. -/
def bOk : Button :=
  { id := 7
    isConnected := true
    tagName := "BUTTON"
    testid := some "tweet-text-show-more-link"
    styleDisplay := ""
    styleVisibility := ""
    textContent := "Show more"
    disabled := false
    ariaHidden := false
    rectWidth := 20
    rectHeight := 10
    opacity := "1"
    ancestors := [ancTweet] }

/-- A valid-looking button with a chosen identity. -/
def mkBtn (i : Nat) : Button :=
  { bOk with id := i }

/-- A signature match that is disabled, marked `aria-hidden`, of zero
extent and fully transparent, yet connected and carrying the right test id
and text. -/
def bDisabled : Button :=
  { bOk with
    id := 9
    disabled := true
    ariaHidden := true
    rectWidth := 0
    rectHeight := 0
    opacity := "0" }

/-! Helper lemmas about `setAdd` and field preservation. -/

lemma mem_setAdd {l : List Nat} {x e : Nat} (h : e ∈ setAdd l x) : e ∈ l ∨ e = x := by
  unfold setAdd at h
  split at h
  · exact Or.inl h
  · rcases List.mem_append.1 h with h | h
    · exact Or.inl h
    · exact Or.inr (List.mem_singleton.1 h)

lemma setAdd_of_not_contains {l : List Nat} {x : Nat} (h : l.contains x = false) :
    setAdd l x = l ++ [x] := by
  unfold setAdd
  rw [h]
  simp

lemma length_setAdd_le (l : List Nat) (x : Nat) :
    (setAdd l x).length ≤ l.length + 1 := by
  unfold setAdd
  split <;> simp

lemma scanStep_keeps (p : St × Nat) (b : Button) :
    (scanStep p b).1.processed = p.1.processed ∧
    (scanStep p b).1.clicks = p.1.clicks ∧
    (scanStep p b).1.scheduledClicks = p.1.scheduledClicks ∧
    (scanStep p b).1.observed = p.1.observed := by
  unfold scanStep
  split <;> simp

lemma scanFoldl_keeps (bs : List Button) (p : St × Nat) :
    ((bs.foldl scanStep p).1.processed = p.1.processed) ∧
    ((bs.foldl scanStep p).1.clicks = p.1.clicks) ∧
    ((bs.foldl scanStep p).1.scheduledClicks = p.1.scheduledClicks) ∧
    ((bs.foldl scanStep p).1.observed = p.1.observed) := by
  induction bs generalizing p with
  | nil => simp
  | cons b bs ih =>
    simp only [List.foldl_cons]
    obtain ⟨h1, h2, h3, h4⟩ := ih (scanStep p b)
    obtain ⟨g1, g2, g3, g4⟩ := scanStep_keeps p b
    exact ⟨h1.trans g1, h2.trans g2, h3.trans g3, h4.trans g4⟩

lemma processPendingButtons_keeps (st : St) :
    (processPendingButtons st).processed = st.processed ∧
    (processPendingButtons st).clicks = st.clicks ∧
    (processPendingButtons st).scheduledClicks = st.scheduledClicks ∧
    (processPendingButtons st).observed = st.observed := by
  unfold processPendingButtons
  split <;> simp

lemma findNewButtons_keeps (st : St) (dom : List Button) :
    ((findNewButtons st dom).1.processed = st.processed) ∧
    ((findNewButtons st dom).1.clicks = st.clicks) ∧
    ((findNewButtons st dom).1.scheduledClicks = st.scheduledClicks) ∧
    ((findNewButtons st dom).1.observed = st.observed) := by
  simp only [findNewButtons]
  obtain ⟨h1, h2, h3, h4⟩ := scanFoldl_keeps (dom.filter matchesSelector) (st, 0)
  obtain ⟨g1, g2, g3, g4⟩ :=
    processPendingButtons_keeps ((dom.filter matchesSelector).foldl scanStep (st, 0)).1
  split
  · exact ⟨g1.trans h1, g2.trans h2, g3.trans h3, g4.trans h4⟩
  · exact ⟨h1, h2, h3, h4⟩

lemma idleProcess_keeps (st : St) (conn : Nat → Bool) :
    (idleProcess st conn).processed = st.processed ∧
    (idleProcess st conn).pending = st.pending ∧
    (idleProcess st conn).clicks = st.clicks ∧
    (idleProcess st conn).scheduledClicks = st.scheduledClicks := by
  unfold idleProcess
  split <;> simp

lemma processButton_keeps (st : St) (b : Button) :
    (processButton st b).pending = st.pending ∧
    (processButton st b).observed = st.observed ∧
    (processButton st b).idleTasks = st.idleTasks ∧
    (processButton st b).clicks = st.clicks ∧
    (processButton st b).isProcessing = st.isProcessing := by
  unfold processButton
  split
  · simp
  · split <;> simp

lemma valid_not_contains {processed : List Nat} {b : Button}
    (h : isValidShowMoreButton processed b = true) : processed.contains b.id = false := by
  unfold isValidShowMoreButton at h
  split at h
  · exact absurd h (by simp)
  · rename_i hc
    simp only [Bool.or_eq_true, Bool.not_eq_true'] at hc
    push_neg at hc
    exact Bool.not_eq_true _ ▸ hc.2

/-! The at-most-once invariant: across clicks already fired and clicks
still scheduled, an element occurs at most once, and only when it is
marked processed. -/

/-- Invariant tying the click log and the outstanding click timers to the
`processedButtons` registry. -/
def AtMostOnce (st : St) : Prop :=
  ∀ e : Nat, st.clicks.count e + st.scheduledClicks.count e ≤
    if e ∈ st.processed then 1 else 0

lemma amo_of_eq {st st' : St} (h : AtMostOnce st)
    (hc : st'.clicks = st.clicks) (hs : st'.scheduledClicks = st.scheduledClicks)
    (hp : st'.processed = st.processed) : AtMostOnce st' := by
  intro e
  rw [hc, hs, hp]
  exact h e

lemma amo_start : AtMostOnce St.start := by
  intro e
  simp [St.start]

lemma amo_processButton {st : St} (b : Button) (h : AtMostOnce st) :
    AtMostOnce (processButton st b) := by
  unfold processButton
  split
  · exact h
  · rename_i hv
    have hval : isValidShowMoreButton st.processed b = true := by
      simpa using hv
    have hnc : st.processed.contains b.id = false := valid_not_contains hval
    have hnm : b.id ∉ st.processed := by simpa using hnc
    have hset : setAdd st.processed b.id = st.processed ++ [b.id] :=
      setAdd_of_not_contains hnc
    have hb := h b.id
    rw [if_neg hnm] at hb
    split
    · intro e
      by_cases he : e = b.id
      · subst he
        simp only [hset]
        rw [if_pos (by simp)]
        omega
      · have := h e
        simp only [hset, List.mem_append, List.mem_singleton, he, or_false]
        exact this
    · intro e
      by_cases he : e = b.id
      · subst he
        have hmem : b.id ∈ st.processed ++ [b.id] := by simp
        simp only [hset, List.count_append, List.count_singleton, beq_self_eq_true,
          eq_self_iff_true, if_true, if_pos hmem]
        omega
      · have := h e
        have hne : (b.id == e) = false := by simp [Ne.symm he]
        simp only [hset, List.count_append, List.count_singleton, hne,
          List.mem_append, List.mem_singleton, he, or_false, Bool.false_eq_true,
          if_false]
        omega

lemma amo_ioCallbackEntry {st : St} (en : Entry) (h : AtMostOnce st) :
    AtMostOnce (ioCallbackEntry st en) := by
  unfold ioCallbackEntry
  split
  · exact amo_processButton en.target h
  · exact h

lemma amo_ioCallback {st : St} (entries : List Entry) (h : AtMostOnce st) :
    AtMostOnce (ioCallback st entries) := by
  induction entries generalizing st with
  | nil => exact h
  | cons en entries ih =>
    exact ih (amo_ioCallbackEntry en h)

lemma amo_fireScheduledClick {st : St} (b : Button) (r : Bool) (h : AtMostOnce st) :
    AtMostOnce (fireScheduledClick st b r) := by
  unfold fireScheduledClick
  split
  · rename_i hc
    have hm : b.id ∈ st.scheduledClicks := by simpa using hc
    have hpos : 0 < st.scheduledClicks.count b.id := List.count_pos_iff.2 hm
    split
    · intro e
      by_cases he : e = b.id
      · subst he
        have := h b.id
        simp only [List.count_append, List.count_singleton, List.count_erase_self,
          beq_self_eq_true, if_pos]
        omega
      · have := h e
        simp only [List.count_append, List.count_singleton,
          List.count_erase_of_ne he]
        have hne : (b.id == e) = false := by simp [Ne.symm he]
        rw [hne]
        simp only [Bool.false_eq_true, if_false]
        omega
    · intro e
      by_cases he : e = b.id
      · subst he
        have := h b.id
        simp only [List.count_erase_self]
        omega
      · have := h e
        simp only [List.count_erase_of_ne he]
        omega
  · exact h

lemma amo_step {st : St} (ev : Event) (h : AtMostOnce st) : AtMostOnce (step st ev) := by
  cases ev with
  | scan dom =>
    obtain ⟨h1, h2, h3, _⟩ := findNewButtons_keeps st dom
    exact amo_of_eq h h2 h3 h1
  | idle conn =>
    obtain ⟨h1, _, h3, h4⟩ := idleProcess_keeps st conn
    exact amo_of_eq h h3 h4 h1
  | visibility entries => exact amo_ioCallback entries h
  | clickTimer b r => exact amo_fireScheduledClick b r h
  | backup conn dom =>
    obtain ⟨h1, h2, h3, _⟩ :=
      findNewButtons_keeps { st with pending := st.pending.filter conn } dom
    exact amo_of_eq h h2 h3 h1

lemma amo_runFrom {st : St} (tr : List Event) (h : AtMostOnce st) :
    AtMostOnce (runFrom st tr) := by
  induction tr generalizing st with
  | nil => exact h
  | cons ev tr ih => exact ih (amo_step ev h)

/-! Lemmas tracing every click back to a visibility crossing. -/

lemma ioCallbackEntry_clicks (st : St) (en : Entry) :
    (ioCallbackEntry st en).clicks = st.clicks := by
  unfold ioCallbackEntry
  split
  · exact (processButton_keeps _ _).2.2.2.1
  · rfl

lemma ioCallback_clicks (entries : List Entry) (st : St) :
    (ioCallback st entries).clicks = st.clicks := by
  induction entries generalizing st with
  | nil => rfl
  | cons en entries ih =>
    simp only [ioCallback, List.foldl_cons]
    exact (ih (ioCallbackEntry st en)).trans (ioCallbackEntry_clicks st en)

lemma processButton_sched_mem {st : St} {b : Button} {e : Nat}
    (h : e ∈ (processButton st b).scheduledClicks) :
    e ∈ st.scheduledClicks ∨ e = b.id := by
  unfold processButton at h
  split at h
  · exact Or.inl h
  · split at h
    · exact Or.inl h
    · rcases List.mem_append.1 h with h | h
      · exact Or.inl h
      · exact Or.inr (List.mem_singleton.1 h)

lemma ioCallbackEntry_sched_mem {st : St} {en : Entry} {e : Nat}
    (h : e ∈ (ioCallbackEntry st en).scheduledClicks) :
    e ∈ st.scheduledClicks ∨ (en.isIntersecting = true ∧ en.target.id = e) := by
  unfold ioCallbackEntry at h
  split at h
  · rename_i hg
    simp only [Bool.and_eq_true] at hg
    rcases processButton_sched_mem h with h | h
    · exact Or.inl h
    · exact Or.inr ⟨hg.1, h.symm⟩
  · exact Or.inl h

lemma ioCallback_sched_mem {entries : List Entry} {st : St} {e : Nat}
    (h : e ∈ (ioCallback st entries).scheduledClicks) :
    e ∈ st.scheduledClicks ∨ ∃ en ∈ entries, en.isIntersecting = true ∧ en.target.id = e := by
  induction entries generalizing st with
  | nil => exact Or.inl h
  | cons en entries ih =>
    simp only [ioCallback, List.foldl_cons] at h
    rcases @ih (ioCallbackEntry st en) h with h' | h'
    · rcases ioCallbackEntry_sched_mem h' with h'' | h''
      · exact Or.inl h''
      · exact Or.inr ⟨en, List.mem_cons_self en entries, h''⟩
    · obtain ⟨en', hmem, hcross⟩ := h'
      exact Or.inr ⟨en', List.mem_cons_of_mem en hmem, hcross⟩

lemma fireScheduledClick_keeps (st : St) (b : Button) (r : Bool) :
    (fireScheduledClick st b r).pending = st.pending ∧
    (fireScheduledClick st b r).processed = st.processed ∧
    (fireScheduledClick st b r).observed = st.observed ∧
    (fireScheduledClick st b r).idleTasks = st.idleTasks := by
  unfold fireScheduledClick
  split
  · split <;> simp
  · simp

lemma fireScheduledClick_clicks_mem {st : St} {b : Button} {r : Bool} {e : Nat}
    (h : e ∈ (fireScheduledClick st b r).clicks) :
    e ∈ st.clicks ∨ e ∈ st.scheduledClicks := by
  unfold fireScheduledClick at h
  split at h
  · rename_i hc
    split at h
    · rcases List.mem_append.1 h with h | h
      · exact Or.inl h
      · rw [List.mem_singleton.1 h]
        exact Or.inr (by simpa using hc)
    · exact Or.inl h
  · exact Or.inl h

lemma fireScheduledClick_sched_mem {st : St} {b : Button} {r : Bool} {e : Nat}
    (h : e ∈ (fireScheduledClick st b r).scheduledClicks) :
    e ∈ st.scheduledClicks := by
  unfold fireScheduledClick at h
  split at h
  · split at h
    · exact List.mem_of_mem_erase h
    · exact List.mem_of_mem_erase h
  · exact h

lemma runFrom_cons (st : St) (ev : Event) (tr : List Event) :
    runFrom st (ev :: tr) = runFrom (step st ev) tr := rfl

lemma crossedIn_cons (ev : Event) (tr : List Event) (e : Nat) :
    crossedIn (ev :: tr) e = (ev.crossingFor e || crossedIn tr e) := by
  simp [crossedIn]

lemma clicks_need_crossing :
    ∀ (tr : List Event) (st : St) (e : Nat),
      (e ∈ (runFrom st tr).clicks ∨ e ∈ (runFrom st tr).scheduledClicks) →
      (e ∈ st.clicks ∨ e ∈ st.scheduledClicks ∨ crossedIn tr e = true) := by
  intro tr
  induction tr with
  | nil => intro st e h; rcases h with h | h
           · exact Or.inl h
           · exact Or.inr (Or.inl h)
  | cons ev tr ih =>
    intro st e h
    have h' := ih (step st ev) e h
    rw [crossedIn_cons]
    rcases h' with h' | h' | h'
    · -- e is already a click of the intermediate state
      cases ev with
      | scan dom =>
        simp only [step] at h'
        rw [(findNewButtons_keeps st dom).2.1] at h'
        exact Or.inl h'
      | idle conn =>
        simp only [step] at h'
        rw [(idleProcess_keeps st conn).2.2.1] at h'
        exact Or.inl h'
      | visibility entries =>
        simp only [step] at h'
        rw [ioCallback_clicks entries st] at h'
        exact Or.inl h'
      | clickTimer b r =>
        simp only [step] at h'
        rcases fireScheduledClick_clicks_mem h' with h'' | h''
        · exact Or.inl h''
        · exact Or.inr (Or.inl h'')
      | backup conn dom =>
        simp only [step, backupTick] at h'
        rw [(findNewButtons_keeps _ dom).2.1] at h'
        exact Or.inl h'
    · -- e is a scheduled click of the intermediate state
      cases ev with
      | scan dom =>
        simp only [step] at h'
        rw [(findNewButtons_keeps st dom).2.2.1] at h'
        exact Or.inr (Or.inl h')
      | idle conn =>
        simp only [step] at h'
        rw [(idleProcess_keeps st conn).2.2.2] at h'
        exact Or.inr (Or.inl h')
      | visibility entries =>
        simp only [step] at h'
        rcases ioCallback_sched_mem h' with h'' | h''
        · exact Or.inr (Or.inl h'')
        · obtain ⟨en, hmem, hint, hid⟩ := h''
          refine Or.inr (Or.inr ?_)
          have : Event.crossingFor e (Event.visibility entries) = true := by
            simp only [Event.crossingFor]
            exact List.any_eq_true.2 ⟨en, hmem, by simp [hint, hid]⟩
          simp [this]
      | clickTimer b r =>
        simp only [step] at h'
        exact Or.inr (Or.inl (fireScheduledClick_sched_mem h'))
      | backup conn dom =>
        simp only [step, backupTick] at h'
        rw [(findNewButtons_keeps _ dom).2.2.1] at h'
        exact Or.inr (Or.inl h')
    · -- e crossed inside the tail trace
      simp [h']

/-! Lemmas about the pending set. -/

lemma ioCallbackEntry_pending_nil {st : St} (en : Entry) (h : st.pending = []) :
    ioCallbackEntry st en = st := by
  unfold ioCallbackEntry
  rw [h]
  simp

lemma ioCallback_pending_nil {st : St} (entries : List Entry) (h : st.pending = []) :
    ioCallback st entries = st := by
  induction entries with
  | nil => rfl
  | cons en entries ih =>
    simp only [ioCallback, List.foldl_cons] at *
    rw [ioCallbackEntry_pending_nil en h]
    exact ih

lemma noScan_run {tr : List Event} {st : St}
    (hp : st.pending = []) (hs : ∀ ev ∈ tr, ev.isScanTurn = false) :
    (runFrom st tr).pending = [] ∧ (runFrom st tr).processed = st.processed ∧
    ∀ e, e ∈ (runFrom st tr).scheduledClicks → e ∈ st.scheduledClicks := by
  induction tr generalizing st with
  | nil => exact ⟨hp, rfl, fun _ h => h⟩
  | cons ev tr ih =>
    have hs' : ∀ ev' ∈ tr, Event.isScanTurn ev' = false :=
      fun ev' h' => hs ev' (List.mem_cons_of_mem ev h')
    cases ev with
    | scan dom => exact absurd (hs _ (List.mem_cons_self _ _)) (by simp [Event.isScanTurn])
    | backup conn dom =>
      exact absurd (hs _ (List.mem_cons_self _ _)) (by simp [Event.isScanTurn])
    | idle conn =>
      obtain ⟨k1, k2, _, k4⟩ := idleProcess_keeps st conn
      have hp' : (idleProcess st conn).pending = [] := k2.trans hp
      obtain ⟨m1, m2, m3⟩ := @ih (idleProcess st conn) hp' hs'
      refine ⟨m1, m2.trans k1, fun e he => ?_⟩
      rw [k4] at m3
      exact m3 e he
    | visibility entries =>
      have heq : step st (Event.visibility entries) = st := ioCallback_pending_nil entries hp
      rw [runFrom_cons, heq]
      exact ih hp hs'
    | clickTimer b r =>
      obtain ⟨k1, k2, _, _⟩ := fireScheduledClick_keeps st b r
      have hp' : (fireScheduledClick st b r).pending = [] := k1.trans hp
      obtain ⟨m1, m2, m3⟩ := @ih (fireScheduledClick st b r) hp' hs'
      refine ⟨m1, m2.trans k2, fun e he => ?_⟩
      exact fireScheduledClick_sched_mem (m3 e he)

lemma scanFoldl_pending {bs : List Button} {p : St × Nat} {e : Nat}
    (hp : p.1.processed.contains e = true)
    (h : ((bs.foldl scanStep p).1.pending.contains e = true)) :
    p.1.pending.contains e = true := by
  induction bs generalizing p with
  | nil => exact h
  | cons b bs ih =>
    simp only [List.foldl_cons] at h
    have hp' : (scanStep p b).1.processed.contains e = true := by
      rw [(scanStep_keeps p b).1]
      exact hp
    have h2 := ih hp' h
    unfold scanStep at h2
    split at h2
    · rename_i hg
      simp only [Bool.and_eq_true, Bool.not_eq_true'] at hg
      have hm : e ∈ setAdd p.1.pending b.id := by simpa using h2
      rcases mem_setAdd hm with hm | hm
      · simpa using hm
      · rw [hm] at hp
        rw [hp] at hg
        exact absurd hg.1 (by simp)
    · exact h2

lemma findNewButtons_pending {st : St} {dom : List Button} {e : Nat}
    (hp : st.processed.contains e = true)
    (h : (findNewButtons st dom).1.pending.contains e = true) :
    st.pending.contains e = true := by
  simp only [findNewButtons] at h
  split at h
  · unfold processPendingButtons at h
    split at h
    · exact scanFoldl_pending hp h
    · simp at h
  · exact scanFoldl_pending hp h

/-! Debounce coalescing lemma. -/

lemma runDebounce_chain :
    ∀ (ts : List Nat) (t : Nat), chainB CONFIG.debounceDelay (t :: ts) = true →
      runDebounce ts (some (t + CONFIG.debounceDelay)) =
        [lastSignal t ts + CONFIG.debounceDelay] := by
  intro ts
  induction ts with
  | nil => intro t _; rfl
  | cons t' rest ih =>
    intro t h
    unfold chainB at h
    simp only [Bool.and_eq_true, decide_eq_true_eq] at h
    show (if t + CONFIG.debounceDelay ≤ t' then [t + CONFIG.debounceDelay] else []) ++
        runDebounce rest (debouncedExpand (some (t + CONFIG.debounceDelay)) t') =
      [lastSignal t (t' :: rest) + CONFIG.debounceDelay]
    rw [if_neg (by omega)]
    simp only [List.nil_append]
    exact ih t' h.2

/-! Batch-cycle shape and size lemmas. -/

lemma length_foldl_setAdd (batch : List Nat) (conn : Nat → Bool) (obs : List Nat) :
    (batch.foldl (fun o e => if conn e then setAdd o e else o) obs).length ≤
      obs.length + batch.length := by
  induction batch generalizing obs with
  | nil => simp
  | cons x batch ih =>
    simp only [List.foldl_cons, List.length_cons]
    have h := ih (if conn x then setAdd obs x else obs)
    have h2 : (if conn x then setAdd obs x else obs).length ≤ obs.length + 1 := by
      split
      · exact length_setAdd_le obs x
      · omega
    omega

lemma cycle_shape (st : St) (conn : Nat → Bool)
    (h1 : st.isProcessing = false) (h2 : st.idleTasks = []) :
    idleProcess (processPendingButtons st) conn =
      { st with
        pending := []
        idleTasks := []
        observed := (st.pending.take CONFIG.maxProcessPerBatch).foldl
          (fun o e => if conn e then setAdd o e else o) st.observed
        isProcessing := false } := by
  unfold processPendingButtons
  rw [if_neg (by simp [h1])]
  unfold idleProcess
  simp [h2]

/-! Concrete sessions and states used by the witnesses and
counterexamples. -/

/-- A session in which button 3 is discovered by two scans (the second one
re-inserting it into the pending set after the first cycle cleared it),
crosses the visibility threshold, and has its click timer fire. -/
def trC1 : List Event :=
  [Event.scan [mkBtn 3], Event.scan [mkBtn 3],
   Event.visibility [{ target := mkBtn 3, isIntersecting := true }],
   Event.clickTimer (mkBtn 3) false]

/-- Same session shape for button 7 (`bOk`). -/
def trC2 : List Event :=
  [Event.scan [bOk], Event.scan [bOk],
   Event.visibility [{ target := bOk, isIntersecting := true }],
   Event.clickTimer bOk false]

/-- An intersecting entry for `bOk`. -/
def enOk : Entry :=
  { target := bOk, isIntersecting := true }

/-- A non-intersecting entry for `bOk`. -/
def enFar : Entry :=
  { target := bOk, isIntersecting := false }

/-- A state in which button 5 is already processed. -/
def stP : St :=
  { St.start with processed := [5] }

/-- A state in which button 5 is processed yet also still pending. -/
def stW1 : St :=
  { St.start with processed := [5], pending := [5] }

/-- A state with seven pending candidates and an idle pipeline. -/
def st7 : St :=
  { St.start with pending := [1, 2, 3, 4, 5, 6, 7] }

/-- A state with one outstanding scheduled click for element 4. -/
def stW3 : St :=
  { St.start with scheduledClicks := [4] }

/-- A scan-free tail trace: a visibility callback and an idle callback. -/
def trW3 : List Event :=
  [Event.visibility [enOk], Event.idle (fun _ => true)]

/-- Button 7 admitted (pending) and observed, as after its admission
cycle plus a re-inserting scan. -/
def stC5 : St :=
  { St.start with pending := [7], observed := [7] }

/-- `bOk` disconnected from the tree at click-timer time. -/
def bGone : Button :=
  { bOk with isConnected := false }

/-- A state with two outstanding scheduled clicks, for 7 and 4. -/
def stSched : St :=
  { St.start with scheduledClicks := [7, 4] }

/-! The claims. -/

/-- Claim C1: the click action fires on an element at most once per
session — once `processButton` marks an element processed, no later scan
admits it to the pending set and no later visibility crossing dispatches
it again.  Clause 1: in every session the click log holds any element at
most once.  Clause 2: `processButton` on an already-processed element is a
no-op.  Clause 3: a scan never newly admits a processed element to the
pending set. -/
theorem c1_at_most_once :
    (∀ (tr : List Event) (e : Nat), (run tr).clicks.count e ≤ 1) ∧
    (∀ (st : St) (b : Button), st.processed.contains b.id = true →
      processButton st b = st) ∧
    (∀ (st : St) (dom : List Button) (e : Nat), st.processed.contains e = true →
      (findNewButtons st dom).1.pending.contains e = true →
      st.pending.contains e = true) := by
  refine ⟨?_, ?_, ?_⟩
  · intro tr e
    have h := amo_runFrom tr amo_start e
    have hb : (if e ∈ (runFrom St.start tr).processed then 1 else 0) ≤ 1 := by
      split <;> omega
    calc (run tr).clicks.count e
        ≤ (run tr).clicks.count e + (run tr).scheduledClicks.count e := by omega
      _ ≤ _ := h
      _ ≤ 1 := hb
  · intro st b hb
    have hv : isValidShowMoreButton st.processed b = false := by
      unfold isValidShowMoreButton
      rw [hb]
      simp
    simp [processButton, hv]
  · intro st dom e h1 h2
    exact findNewButtons_pending h1 h2

/-- Witness for C1 at concrete inputs: the session `trC1` clicks button 3
at most once; `processButton` is a no-op on the processed button 5; and a
scan over an empty DOM leaves the processed-and-pending element 5 exactly
where it was. -/
theorem c1_at_most_once_witness :
    (run trC1).clicks.count 3 ≤ 1 ∧
    processButton stP (mkBtn 5) = stP ∧
    stW1.pending.contains 5 = true :=
  ⟨c1_at_most_once.1 trC1 3,
   c1_at_most_once.2.1 stP (mkBtn 5) (by decide),
   c1_at_most_once.2.2 stW1 [] 5 (by decide) (by decide)⟩

/-- Claim C2: the action never fires on an element before it has crossed
the visibility threshold.  Clause 1: any element in the click log of a
session crossed (an intersecting entry was delivered for it) somewhere in
the trace.  Clause 2: a non-intersecting entry leaves the state untouched
— the observer callback dispatches only on `isIntersecting`. -/
theorem c2_no_premature_action :
    (∀ (tr : List Event) (e : Nat), e ∈ (run tr).clicks → crossedIn tr e = true) ∧
    (∀ (st : St) (en : Entry), en.isIntersecting = false →
      ioCallbackEntry st en = st) := by
  constructor
  · intro tr e h
    rcases clicks_need_crossing tr St.start e (Or.inl h) with h' | h' | h'
    · exact absurd h' (by simp [St.start])
    · exact absurd h' (by simp [St.start])
    · exact h'
  · intro st en h
    unfold ioCallbackEntry
    rw [h]
    simp

/-- Witness for C2: in the session `trC2` button 7 is actually clicked,
and the theorem yields that it crossed the threshold inside the trace; a
non-intersecting entry leaves the start state unchanged. -/
theorem c2_no_premature_action_witness :
    7 ∈ (run trC2).clicks ∧ crossedIn trC2 7 = true ∧
    ioCallbackEntry St.start enFar = St.start :=
  ⟨by decide,
   c2_no_premature_action.1 trC2 7 (by decide),
   c2_no_premature_action.2 St.start enFar (by decide)⟩

/-- Claim C10: `processPendingButtons` empties the whole pending set
(admitted batch included), the visibility callback dispatches only pending
elements, and hence in any scan-free suffix started with an empty pending
set nothing is ever dispatched: the pending set stays empty, the processed
registry is frozen and no new click is scheduled. -/
theorem c10_pending_cleared :
    (∀ st : St, st.isProcessing = false → (processPendingButtons st).pending = []) ∧
    (∀ (st : St) (en : Entry), st.pending.contains en.target.id = false →
      ioCallbackEntry st en = st) ∧
    (∀ (st : St) (tr : List Event), st.pending = [] →
      (∀ ev ∈ tr, ev.isScanTurn = false) →
      (runFrom st tr).pending = [] ∧ (runFrom st tr).processed = st.processed ∧
      ∀ e, e ∈ (runFrom st tr).scheduledClicks → e ∈ st.scheduledClicks) := by
  refine ⟨?_, ?_, ?_⟩
  · intro st h
    unfold processPendingButtons
    rw [if_neg (by simp [h])]
  · intro st en h
    unfold ioCallbackEntry
    rw [h]
    simp
  · intro st tr hp hs
    exact noScan_run hp hs

/-- Witness for C10: clearing the seven-element pending set leaves it
empty; an intersecting entry for the non-pending button 7 is dropped at
the start state; and over the scan-free trace `trW3` the pending set stays
empty while the scheduled click for element 4 traces back to `stW3`. -/
theorem c10_pending_cleared_witness :
    (processPendingButtons st7).pending = [] ∧
    ioCallbackEntry St.start enOk = St.start ∧
    (runFrom stW3 trW3).pending = [] ∧
    4 ∈ stW3.scheduledClicks :=
  ⟨c10_pending_cleared.1 st7 (by decide),
   c10_pending_cleared.2.1 St.start enOk (by decide),
   (c10_pending_cleared.2.2 stW3 trW3 (by decide) (by decide)).1,
   (c10_pending_cleared.2.2 stW3 trW3 (by decide) (by decide)).2.2 4 (by decide)⟩

/-- Counterexample to claim C3: a scan does not mark scanned candidates
known.  The fully valid button `bOk` is counted as a new candidate by the
first scan, yet the Dedup Registry (`processedButtons`) stays empty, and a
second scan over the same DOM admits the very same element again. -/
theorem c3_counterexample :
    (findNewButtons St.start [bOk]).2 = 1 ∧
    (findNewButtons St.start [bOk]).1.processed = [] ∧
    (findNewButtons (findNewButtons St.start [bOk]).1 [bOk]).2 = 1 := by
  decide

/-- Claim C3 as amended: the scan path (`findNewButtons`, including its
call of `processPendingButtons`) never touches the `processedButtons`
registry; an element is marked known only when `processButton` runs on a
visibility crossing, at which point the mark is appended synchronously
before the `setTimeout` click is scheduled. -/
theorem c3_amended :
    (∀ (st : St) (dom : List Button), (findNewButtons st dom).1.processed = st.processed) ∧
    (∀ (st : St) (b : Button), isValidShowMoreButton st.processed b = true →
      (processButton st b).processed = st.processed ++ [b.id]) := by
  constructor
  · intro st dom
    exact (findNewButtons_keeps st dom).1
  · intro st b h
    have hset := setAdd_of_not_contains (valid_not_contains h)
    unfold processButton
    rw [h]
    simp only [Bool.not_true, Bool.false_eq_true, if_false]
    split <;> simp [hset]

/-- Witness for C3 (amended): the scan over `[bOk]` leaves the registry
empty, and `processButton` on the valid `bOk` appends exactly its
identity. -/
theorem c3_amended_witness :
    (findNewButtons St.start [bOk]).1.processed = St.start.processed ∧
    (processButton St.start bOk).processed = St.start.processed ++ [bOk.id] :=
  ⟨c3_amended.1 St.start [bOk],
   c3_amended.2 St.start bOk (by decide)⟩

/-- Claim C4: an admission cycle (the synchronous `processPendingButtons`
plus its idle callback) subscribes at most `B = 5` candidates for
visibility, marks nobody known, and leaves every candidate — the excess in
particular — re-discoverable: the registry is unchanged, so an
unprocessed valid button still passes the scan admission test
afterwards. -/
theorem c4_batch_bound :
    CONFIG.maxProcessPerBatch = 5 ∧
    (∀ (st : St) (conn : Nat → Bool), st.isProcessing = false → st.idleTasks = [] →
      (idleProcess (processPendingButtons st) conn).observed.length ≤
        st.observed.length + 5 ∧
      (idleProcess (processPendingButtons st) conn).processed = st.processed) ∧
    (∀ (st : St) (conn : Nat → Bool) (b : Button),
      st.isProcessing = false → st.idleTasks = [] →
      st.processed.contains b.id = false →
      isValidShowMoreButton st.processed b = true →
      (idleProcess (processPendingButtons st) conn).processed.contains b.id = false ∧
      isValidShowMoreButton (idleProcess (processPendingButtons st) conn).processed b
        = true) := by
  refine ⟨rfl, ?_, ?_⟩
  · intro st conn h1 h2
    rw [cycle_shape st conn h1 h2]
    constructor
    · have hf := length_foldl_setAdd (st.pending.take CONFIG.maxProcessPerBatch) conn
        st.observed
      have ht : (st.pending.take CONFIG.maxProcessPerBatch).length ≤ 5 :=
        List.length_take_le _ _
      simp only []
      omega
    · rfl
  · intro st conn b h1 h2 h3 h4
    rw [cycle_shape st conn h1 h2]
    exact ⟨h3, h4⟩

/-- Witness for C4 at the spec's own example: seven valid pending
candidates, one cycle; at most five get a visibility subscription, the
registry stays empty, and the valid unprocessed `bOk` still passes the
admission test afterwards. -/
theorem c4_batch_bound_witness :
    CONFIG.maxProcessPerBatch = 5 ∧
    (idleProcess (processPendingButtons st7) (fun _ => true)).observed.length ≤
      st7.observed.length + 5 ∧
    (idleProcess (processPendingButtons st7) (fun _ => true)).processed = st7.processed ∧
    isValidShowMoreButton
      (idleProcess (processPendingButtons st7) (fun _ => true)).processed bOk = true :=
  ⟨c4_batch_bound.1,
   (c4_batch_bound.2.1 st7 (fun _ => true) (by decide) (by decide)).1,
   (c4_batch_bound.2.1 st7 (fun _ => true) (by decide) (by decide)).2,
   (c4_batch_bound.2.2 st7 (fun _ => true) bOk (by decide) (by decide) (by decide)
     (by decide)).2⟩

/-- Counterexample to claim C5: on the first crossing of the pending,
observed button 7 the gate does remove it from the pending set, mark it,
and schedule its click — but it does not unsubscribe it: the element is
still in the observed set afterwards.  Likewise the backup pruning of a
disconnected pending element removes only the pending entry, not the
visibility subscription. -/
theorem c5_counterexample :
    (ioCallbackEntry stC5 enOk).pending = [] ∧
    (ioCallbackEntry stC5 enOk).processed = [7] ∧
    (ioCallbackEntry stC5 enOk).scheduledClicks = [7] ∧
    (ioCallbackEntry stC5 enOk).observed = [7] ∧
    (backupTick stC5 (fun _ => false) []).pending = [] ∧
    (backupTick stC5 (fun _ => false) []).observed = [7] := by
  decide

/-- Claim C5 as amended: on a first crossing of a pending candidate the
gate removes it from the pending set and forwards it to `processButton`,
but the visibility subscription is never destroyed per element — neither
the observer callback nor the backup pruning path ever shrinks the
observed set; only `cleanup`'s whole-observer disconnect does. -/
theorem c5_amended :
    (∀ (st : St) (en : Entry), en.isIntersecting = true →
      st.pending.contains en.target.id = true →
      ioCallbackEntry st en =
        processButton { st with pending := st.pending.erase en.target.id } en.target) ∧
    (∀ (st : St) (en : Entry), (ioCallbackEntry st en).observed = st.observed) ∧
    (∀ (st : St) (conn : Nat → Bool) (dom : List Button),
      (backupTick st conn dom).observed = st.observed) := by
  refine ⟨?_, ?_, ?_⟩
  · intro st en h1 h2
    unfold ioCallbackEntry
    rw [h1, h2]
    simp
  · intro st en
    unfold ioCallbackEntry
    split
    · exact (processButton_keeps _ _).2.1
    · rfl
  · intro st conn dom
    exact (findNewButtons_keeps _ dom).2.2.2

/-- Witness for C5 (amended) at the concrete crossing of button 7. -/
theorem c5_amended_witness :
    ioCallbackEntry stC5 enOk =
      processButton { stC5 with pending := stC5.pending.erase enOk.target.id }
        enOk.target ∧
    (ioCallbackEntry stC5 enOk).observed = stC5.observed ∧
    (backupTick stC5 (fun _ => false) []).observed = stC5.observed :=
  ⟨c5_amended.1 stC5 enOk (by decide) (by decide),
   c5_amended.2.1 stC5 enOk,
   c5_amended.2.2 stC5 (fun _ => false) []⟩

/-- Claim C6: each change signal cancels any outstanding scheduled rescan
and schedules a fresh one (the single-slot timer holds exactly the new
fire time), so a burst of signals each arriving less than the quiet
period `D = 200` after the previous one produces exactly one rescan,
firing `D` after the last signal. -/
theorem c6_debounce_coalescing :
    CONFIG.debounceDelay = 200 ∧
    (∀ (timer : Option Nat) (now : Nat),
      debouncedExpand timer now = some (now + CONFIG.debounceDelay)) ∧
    (∀ (t : Nat) (ts : List Nat), chainB CONFIG.debounceDelay (t :: ts) = true →
      runDebounce (t :: ts) none = [lastSignal t ts + CONFIG.debounceDelay]) := by
  refine ⟨rfl, fun _ _ => rfl, ?_⟩
  intro t ts h
  show ([] : List Nat) ++ runDebounce ts (debouncedExpand none t) = _
  simp only [List.nil_append]
  exact runDebounce_chain ts t h

/-- Witness for C6: three signals at 0, 100 and 150 (gaps 100 and 50,
both under the 200 quiet period) coalesce into the single rescan at
350. -/
theorem c6_debounce_coalescing_witness :
    chainB CONFIG.debounceDelay [0, 100, 150] = true ∧
    runDebounce [0, 100, 150] none = [lastSignal 0 [100, 150] + CONFIG.debounceDelay] ∧
    lastSignal 0 [100, 150] + CONFIG.debounceDelay = 350 :=
  ⟨by decide,
   c6_debounce_coalescing.2.2 0 [100, 150] (by decide),
   by decide⟩

/-- Claim C7: the click timer (scheduled with the fixed 300ms delay)
re-validates connectivity and enabledness immediately before firing and
silently skips — consuming the timer, leaving the registry untouched, no
retry — when the check fails; an exception of `click()` is caught, so the
raising and non-raising runs produce identical states; and a firing for
one element never changes another element's clicks or scheduled
clicks. -/
theorem c7_dispatch_revalidation :
    CONFIG.clickDelay = 300 ∧
    (∀ (st : St) (b : Button) (r : Bool), st.scheduledClicks.contains b.id = true →
      (b.isConnected && !b.disabled) = false →
      (fireScheduledClick st b r).clicks = st.clicks ∧
      (fireScheduledClick st b r).scheduledClicks = st.scheduledClicks.erase b.id ∧
      (fireScheduledClick st b r).processed = st.processed) ∧
    (∀ (st : St) (b : Button), fireScheduledClick st b true = fireScheduledClick st b false) ∧
    (∀ (st : St) (b : Button) (r : Bool) (e : Nat), e ≠ b.id →
      (fireScheduledClick st b r).clicks.count e = st.clicks.count e ∧
      (fireScheduledClick st b r).scheduledClicks.count e = st.scheduledClicks.count e) := by
  refine ⟨rfl, ?_, fun _ _ => rfl, ?_⟩
  · intro st b r h1 h2
    have h1m : b.id ∈ st.scheduledClicks := by simpa using h1
    simp [fireScheduledClick, h1m, h2]
  · intro st b r e he
    have hne : (b.id == e) = false := by simp [Ne.symm he]
    unfold fireScheduledClick
    split
    · split
      · refine ⟨?_, ?_⟩ <;>
          simp [List.count_append, List.count_singleton, hne,
            List.count_erase_of_ne he]
      · exact ⟨rfl, List.count_erase_of_ne he _⟩
    · exact ⟨rfl, rfl⟩

/-- Witness for C7: button 7 has a scheduled click but is disconnected at
fire time; the click log stays empty, the timer is consumed without
retry, the registry is untouched, a raising and a non-raising run agree,
and element 4's counts are unaffected. -/
theorem c7_dispatch_revalidation_witness :
    (fireScheduledClick stSched bGone true).clicks = stSched.clicks ∧
    (fireScheduledClick stSched bGone true).scheduledClicks =
      stSched.scheduledClicks.erase bGone.id ∧
    (fireScheduledClick stSched bGone true).processed = stSched.processed ∧
    fireScheduledClick stSched bGone true = fireScheduledClick stSched bGone false ∧
    (fireScheduledClick stSched bGone true).scheduledClicks.count 4 =
      stSched.scheduledClicks.count 4 :=
  ⟨(c7_dispatch_revalidation.2.1 stSched bGone true (by decide) (by decide)).1,
   (c7_dispatch_revalidation.2.1 stSched bGone true (by decide) (by decide)).2.1,
   (c7_dispatch_revalidation.2.1 stSched bGone true (by decide) (by decide)).2.2,
   c7_dispatch_revalidation.2.2.1 stSched bGone,
   (c7_dispatch_revalidation.2.2.2 stSched bGone true 4 (by decide)).2⟩

/-- Counterexample to claim C8: `cleanup` does not release all timers and
subscriptions — after it runs on the post-`initialize` subscription state,
the navigation observer and the periodic backup interval are still
attached, so backup-interval scans and navigation callbacks keep
firing after teardown. -/
theorem c8_counterexample :
    (cleanup subsAfterInit).navObserver = true ∧
    (cleanup subsAfterInit).backupInterval = true := by
  decide

/-- Claim C8 as amended: teardown disconnects the mutation observer and
the intersection observer and cancels the debounce timer, but leaves the
navigation observer and the backup interval (whose handle is never
stored) attached. -/
theorem c8_amended :
    ∀ s : Subs,
      (cleanup s).mutationObserver = false ∧
      (cleanup s).intersectionObserver = false ∧
      (cleanup s).debounceTimerActive = false ∧
      (cleanup s).navObserver = s.navObserver ∧
      (cleanup s).backupInterval = s.backupInterval :=
  fun _ => ⟨rfl, rfl, rfl, rfl, rfl⟩

/-- Counterexample to claim C9: the scanner accepts a signature match that
is disabled, marked `aria-hidden`, of zero extent and fully transparent —
`isValidShowMoreButton` passes it and a scan returns it as a new
candidate. -/
theorem c9_counterexample :
    bDisabled.disabled = true ∧
    bDisabled.ariaHidden = true ∧
    bDisabled.rectWidth = 0 ∧
    bDisabled.rectHeight = 0 ∧
    bDisabled.opacity = "0" ∧
    isValidShowMoreButton [] bDisabled = true ∧
    (findNewButtons St.start [bDisabled]).2 = 1 := by
  decide

/-- Claim C9 as amended: every candidate the scanner accepts is connected,
not yet processed, carries the exact marker, has no inline `display:none`
or `visibility:hidden` style, and contains the `"Show more"` text — these
are the only structural/layout rejections the scanner performs (disabled
is re-checked only at dispatch time; aria-hidden, extent and opacity are
never checked). -/
theorem c9_amended :
    ∀ (processed : List Nat) (b : Button), isValidShowMoreButton processed b = true →
      b.isConnected = true ∧
      processed.contains b.id = false ∧
      b.testid = some "tweet-text-show-more-link" ∧
      b.styleDisplay ≠ "none" ∧
      b.styleVisibility ≠ "hidden" ∧
      jsIncludes b.textContent "Show more" = true := by
  intro processed b h
  unfold isValidShowMoreButton at h
  split at h
  · exact absurd h (by simp)
  · rename_i hc1
    split at h
    · exact absurd h (by simp)
    · rename_i hc2
      split at h
      · exact absurd h (by simp)
      · rename_i hc3
        split at h
        · exact absurd h (by simp)
        · rename_i hc4
          simp at hc1 hc3
          have g2 : processed.contains b.id = false := by simp [hc1.2]
          have g3 : b.testid = some "tweet-text-show-more-link" := by simpa using hc2
          have g6 : jsIncludes b.textContent "Show more" = true := by simpa using hc4
          exact ⟨hc1.1, g2, g3, hc3.1, hc3.2, g6⟩

/-- Witness for C9 (amended) at the valid button `bOk`. -/
theorem c9_amended_witness :
    bOk.isConnected = true ∧
    (List.contains [] bOk.id) = false ∧
    bOk.testid = some "tweet-text-show-more-link" ∧
    bOk.styleDisplay ≠ "none" ∧
    bOk.styleVisibility ≠ "hidden" ∧
    jsIncludes bOk.textContent "Show more" = true :=
  c9_amended [] bOk (by decide)

end TwitExpand
